import Mathlib

/-!
Verification of `packages/hardhat-core/src/internal/cli/project-creation.ts`.

The development shallowly embeds the project-creation module: the filesystem
is an explicit value threaded through each operation (`FS`), fallible
operations return `Except`, and the stateful `copySampleProject` flow returns
the filesystem as mutated so far even when it fails, so that "nothing was
copied" claims are meaningful.  Paths are lists of components; relative paths
are resolved against an explicit current working directory where the source
relies on `process.cwd()`.
-/

set_option maxRecDepth 4096
set_option linter.unusedVariables false

deriving instance DecidableEq for Except

/-- Keep the first occurrence of each element, as lodash `uniq` does. -/
def dedupKeepFirst {α : Type} [DecidableEq α] : List α → List α
  | [] => []
  | x :: xs => x :: (dedupKeepFirst xs).filter (fun y => y ≠ x)

namespace Lodash

/-- lodash `union`: concatenation with duplicates removed, first occurrence wins. -/
def union {α : Type} [DecidableEq α] (a b : List α) : List α :=
  dedupKeepFirst (a ++ b)

/-- lodash `union` of three lists, as used for the advanced-ts tier. -/
def union3 {α : Type} [DecidableEq α] (a b c : List α) : List α :=
  dedupKeepFirst (a ++ b ++ c)

/-- lodash `intersection`: unique elements of the first list present in the second. -/
def intersection {α : Type} [DecidableEq α] (a b : List α) : List α :=
  (dedupKeepFirst a).filter (fun x => x ∈ b)

end Lodash

/-- A filesystem path, as a list of components (absolute). -/
abbrev FsPath := List String

/-- Contents of a file in the model.  `packageJsonFile` singles out the JSON
manifest written by `createPackageJson`, whose only field is `name`. -/
inductive FileData : Type
  | content (s : String)
  | packageJsonFile (name : String)
  deriving DecidableEq

/-- The filesystem: a set of existing directories and a map from file paths to
file data, both as lists. -/
structure FS : Type where
  dirs : List FsPath
  files : List (FsPath × FileData)
  deriving DecidableEq

/-- `underRel base p = some rest` iff `p = base ++ rest`. -/
def underRel : FsPath → FsPath → Option FsPath
  | [], p => some p
  | _ :: _, [] => none
  | a :: as, b :: bs => if a = b then underRel as bs else none

/-- The name of `q` as a direct child of directory `p`, if it is one. -/
def childOf : FsPath → FsPath → Option String
  | [], [n] => some n
  | [], [] => none
  | [], _ :: _ :: _ => none
  | _ :: _, [] => none
  | a :: as, b :: bs => if a = b then childOf as bs else none

/-- Errors surfaced by the filesystem layer. -/
inductive FsError : Type
  | ENOENT
  deriving DecidableEq

namespace FsExtra

/-- Does `p` exist as a directory? -/
def pathDir (fs : FS) (p : FsPath) : Bool :=
  decide (p ∈ fs.dirs)

/-- The data stored at file path `p`, if any. -/
def fileAt (fs : FS) (p : FsPath) : Option FileData :=
  (fs.files.find? (fun e => decide (e.1 = p))).map (fun e => e.2)

/-- `fsExtra.pathExists`: true if `p` is a directory or a file. -/
def pathExists (fs : FS) (p : FsPath) : Bool :=
  pathDir fs p || (fileAt fs p).isSome

/-- The entry names of directory `p`: direct child directories and files. -/
def childNames (fs : FS) (p : FsPath) : List String :=
  dedupKeepFirst
    ((fs.dirs.filterMap (childOf p)) ++ (fs.files.filterMap (fun e => childOf p e.1)))

/-- `fsExtra.readdirSync`: lists a directory's entries; throws `ENOENT` when
the directory does not exist. -/
def readdirSync (fs : FS) (p : FsPath) : Except FsError (List String) :=
  if pathDir fs p then Except.ok (childNames fs p) else Except.error FsError.ENOENT

/-- `fsExtra.ensureDir`: create the directory if it is not present. -/
def ensureDir (fs : FS) (p : FsPath) : FS :=
  if pathDir fs p then fs else { fs with dirs := fs.dirs ++ [p] }

/-- `fsExtra.remove`: delete the path and everything beneath it; absent paths
are a no-op, as in fs-extra. -/
def remove (fs : FS) (p : FsPath) : FS :=
  { dirs := fs.dirs.filter (fun d => (underRel p d).isNone),
    files := fs.files.filter (fun e => (underRel p e.1).isNone) }

/-- `fsExtra.copy src dst`: recursively copy the tree under `src` onto `dst`,
overwriting same-named destination files. -/
def copy (fs : FS) (src dst : FsPath) : FS :=
  let copiedDirs := fs.dirs.filterMap (fun d => (underRel src d).map (fun r => dst ++ r))
  let copiedFiles :=
    fs.files.filterMap (fun e => (underRel src e.1).map (fun r => (dst ++ r, e.2)))
  let newPaths := copiedFiles.map (fun e => e.1)
  { dirs := dedupKeepFirst (fs.dirs ++ copiedDirs),
    files := (fs.files.filter (fun e => decide (e.1 ∉ newPaths))) ++ copiedFiles }

/-- Rename `p` when it lies under `src`, used by `move`. -/
def renameUnder (src dst p : FsPath) : FsPath :=
  match underRel src p with
  | some r => dst ++ r
  | none => p

/-- `fsExtra.move src dst (overwrite)`: fails with `ENOENT` when the source
does not exist; otherwise deletes `dst` and renames the source tree onto it. -/
def move (fs : FS) (src dst : FsPath) : Except FsError FS :=
  if pathExists fs src then
    let fs1 := remove fs dst
    Except.ok
      { dirs := fs1.dirs.map (renameUnder src dst),
        files := fs1.files.map (fun e => (renameUnder src dst e.1, e.2)) }
  else Except.error FsError.ENOENT

/-- `fsExtra.writeFile` / `fsExtra.writeJson`: create or overwrite a file. -/
def writeFile (fs : FS) (p : FsPath) (d : FileData) : FS :=
  { fs with files := (fs.files.filter (fun e => decide (e.1 ≠ p))) ++ [(p, d)] }

end FsExtra

/-! ## The project-creation module -/

/-- The five actions of the initialization wizard (source name: `enum Action`). -/
inductive CliAction : Type
  | CREATE_BASIC_SAMPLE_PROJECT_ACTION
  | CREATE_ADVANCED_SAMPLE_PROJECT_ACTION
  | CREATE_ADVANCED_TYPESCRIPT_SAMPLE_PROJECT_ACTION
  | CREATE_EMPTY_HARDHAT_CONFIG_ACTION
  | QUIT_ACTION
  deriving DecidableEq

/-- The string value of each `Action` enum member. -/
def CliAction.label : CliAction → String
  | .CREATE_BASIC_SAMPLE_PROJECT_ACTION => "Create a basic sample project"
  | .CREATE_ADVANCED_SAMPLE_PROJECT_ACTION => "Create an advanced sample project"
  | .CREATE_ADVANCED_TYPESCRIPT_SAMPLE_PROJECT_ACTION =>
      "Create an advanced sample project that uses TypeScript"
  | .CREATE_EMPTY_HARDHAT_CONFIG_ACTION => "Create an empty hardhat.config.js"
  | .QUIT_ACTION => "Quit"

/-- `Object.values(Action)`, in declaration order. -/
def actionValues : List CliAction :=
  [.CREATE_BASIC_SAMPLE_PROJECT_ACTION, .CREATE_ADVANCED_SAMPLE_PROJECT_ACTION,
   .CREATE_ADVANCED_TYPESCRIPT_SAMPLE_PROJECT_ACTION, .CREATE_EMPTY_HARDHAT_CONFIG_ACTION,
   .QUIT_ACTION]

/-- The three tier-creating actions (`SampleProjectTypeCreationAction`). -/
inductive SampleProjectTypeCreationAction : Type
  | basic
  | advanced
  | advancedTs
  deriving DecidableEq

/-- Errors thrown by the module (`HardhatError` plus rethrown collaborator
errors).  `conflictingFiles` carries the destination path and the colliding
names; the source renders the name list joined with `os.EOL` and a two-space
indent before throwing. -/
inductive HardhatError : Type
  | fsError (e : FsError)
  | conflictingFiles (dest : FsPath) (conflicts : List String)
  deriving DecidableEq

def HARDHAT_PACKAGE_NAME : String := "hardhat"

/-- A dependency table: package name to semver range, in declaration order. -/
abbrev Dependencies := List (String × String)

def BASIC_SAMPLE_PROJECT_DEPENDENCIES : Dependencies :=
  [("@nomiclabs/hardhat-waffle", "^2.0.0"),
   ("ethereum-waffle", "^3.0.0"),
   ("chai", "^4.2.0"),
   ("@nomiclabs/hardhat-ethers", "^2.0.0"),
   ("ethers", "^5.0.0")]

def ADVANCED_SAMPLE_PROJECT_DEPENDENCIES : Dependencies :=
  BASIC_SAMPLE_PROJECT_DEPENDENCIES ++
  [("@nomiclabs/hardhat-etherscan", "^3.0.0"),
   ("dotenv", "^16.0.0"),
   ("eslint", "^7.29.0"),
   ("eslint-config-prettier", "^8.3.0"),
   ("eslint-config-standard", "^16.0.3"),
   ("eslint-plugin-import", "^2.23.4"),
   ("eslint-plugin-node", "^11.1.0"),
   ("eslint-plugin-prettier", "^3.4.0"),
   ("eslint-plugin-promise", "^5.1.0"),
   ("hardhat-gas-reporter", "^1.0.4"),
   ("prettier", "^2.3.2"),
   ("prettier-plugin-solidity", "^1.0.0-beta.13"),
   ("solhint", "^3.3.6"),
   ("solidity-coverage", "^0.7.16")]

def ADVANCED_TYPESCRIPT_SAMPLE_PROJECT_DEPENDENCIES : Dependencies :=
  ADVANCED_SAMPLE_PROJECT_DEPENDENCIES ++
  [("@typechain/ethers-v5", "^7.0.1"),
   ("@typechain/hardhat", "^2.3.0"),
   ("@typescript-eslint/eslint-plugin", "^4.29.1"),
   ("@typescript-eslint/parser", "^4.29.1"),
   ("@types/chai", "^4.2.21"),
   ("@types/node", "^12.0.0"),
   ("@types/mocha", "^9.0.0"),
   ("ts-node", "^10.1.0"),
   ("typechain", "^5.1.2"),
   ("typescript", "^4.5.2")]

def SAMPLE_PROJECT_DEPENDENCIES : SampleProjectTypeCreationAction → Dependencies
  | .basic => BASIC_SAMPLE_PROJECT_DEPENDENCIES
  | .advanced => ADVANCED_SAMPLE_PROJECT_DEPENDENCIES
  | .advancedTs => ADVANCED_TYPESCRIPT_SAMPLE_PROJECT_DEPENDENCIES

/-- `getDependencies`: the hardhat framework package pinned to the running
version, followed by the chosen tier's table (object-spread order). -/
def getDependencies (projectType : SampleProjectTypeCreationAction)
    (version : String) : Dependencies :=
  (HARDHAT_PACKAGE_NAME, "^" ++ version) :: SAMPLE_PROJECT_DEPENDENCIES projectType

/-- The union of source file names of the tiers implied by `projectType`
(the `srcFiles` computed by `checkForDuplicates`). -/
def srcFilesFor (fs : FS) (packageRoot : FsPath)
    (projectType : SampleProjectTypeCreationAction) : Except FsError (List String) := do
  let srcPath := packageRoot ++ [("sample-projects" : String)]
  let base ← FsExtra.readdirSync fs (srcPath ++ [("basic" : String)])
  match projectType with
  | .basic => pure base
  | .advanced => do
      let adv ← FsExtra.readdirSync fs (srcPath ++ [("advanced" : String)])
      pure (Lodash.union base adv)
  | .advancedTs => do
      let adv ← FsExtra.readdirSync fs (srcPath ++ [("advanced" : String)])
      let ts ← FsExtra.readdirSync fs (srcPath ++ [("advanced-ts" : String)])
      pure (Lodash.union3 base adv ts)

/-- `checkForDuplicates`: list the destination, compute the union of the
requested tiers' file names, and throw `CONFLICTING_FILES` when they
intersect.  The destination is listed with `fsExtra.readdirSync`, which
throws `ENOENT` when the destination does not exist. -/
def checkForDuplicates (fs : FS) (packageRoot projectRoot : FsPath)
    (projectType : SampleProjectTypeCreationAction) : Except HardhatError Unit :=
  match FsExtra.readdirSync fs projectRoot with
  | .error e => .error (.fsError e)
  | .ok destFiles =>
    match srcFilesFor fs packageRoot projectType with
    | .error e => .error (.fsError e)
    | .ok srcFiles =>
      let duplicates := Lodash.intersection srcFiles destFiles
      if duplicates.length > 0 then
        .error (.conflictingFiles projectRoot duplicates)
      else .ok ()

/-- `removeProjectDirIfPresent`. -/
def removeProjectDirIfPresent (fs : FS) (projectRoot : FsPath) (dirName : String) : FS :=
  let dirPath := projectRoot ++ [dirName]
  if FsExtra.pathExists fs dirPath then FsExtra.remove fs dirPath else fs

/-- `removeTempFilesIfPresent`: drop `cache` and `artifacts`. -/
def removeTempFilesIfPresent (fs : FS) (projectRoot : FsPath) : FS :=
  removeProjectDirIfPresent
    (removeProjectDirIfPresent fs projectRoot ("cache")) projectRoot ("artifacts")

/-- The advanced-tier overlay step of `copySampleProject` (lines 202-216):
copy the advanced tree, drop the superseded sample script, dot-rename the
staged `npmignore`. -/
def advancedOverlay (fs : FS) (packageRoot projectRoot : FsPath)
    (projectType : SampleProjectTypeCreationAction) : Except HardhatError Unit × FS :=
  if projectType = .advanced ∨ projectType = .advancedTs then
    let fs1 := FsExtra.copy fs (packageRoot ++ [("sample-projects" : String), ("advanced" : String)]) projectRoot
    let fs2 := FsExtra.remove fs1 (projectRoot ++ [("scripts" : String), ("sample-script.js" : String)])
    match FsExtra.move fs2 (projectRoot ++ [("npmignore" : String)])
        (projectRoot ++ [(".npmignore" : String)]) with
    | .error e => (.error (.fsError e), fs2)
    | .ok fs3 => (.ok (), fs3)
  else (.ok (), fs)

/-- The advanced-typescript overlay step of `copySampleProject` (lines
218-235).  The three `jsFile` paths are passed to `fsExtra.remove` as
relative paths in the source, so they resolve against the process's current
working directory `cwd`, not against `projectRoot`. -/
def typescriptOverlay (fs : FS) (cwd packageRoot projectRoot : FsPath)
    (projectType : SampleProjectTypeCreationAction) : Except HardhatError Unit × FS :=
  if projectType = .advancedTs then
    let fs1 := FsExtra.copy fs (packageRoot ++ [("sample-projects" : String), ("advanced-ts" : String)]) projectRoot
    let fs2 := FsExtra.remove fs1 (cwd ++ [("hardhat.config.js" : String)])
    let fs3 := FsExtra.remove fs2 (cwd ++ [("scripts" : String), ("deploy.js" : String)])
    let fs4 := FsExtra.remove fs3 (cwd ++ [("test" : String), ("sample-test.js" : String)])
    match FsExtra.move fs4 (projectRoot ++ [("npmignore" : String)])
        (projectRoot ++ [(".npmignore" : String)]) with
    | .error e => (.error (.fsError e), fs4)
    | .ok fs5 => (.ok (), fs5)
  else (.ok (), fs)

/-- `copySampleProject`: duplicate check, then layered tier copies and
cleanup.  Returns the result together with the filesystem as mutated so far,
so an early error shows exactly what had been written by then. -/
def copySampleProject (fs : FS) (cwd packageRoot projectRoot : FsPath)
    (projectType : SampleProjectTypeCreationAction) : Except HardhatError Unit × FS :=
  match checkForDuplicates fs packageRoot projectRoot projectType with
  | .error e => (.error e, fs)
  | .ok _ =>
    let fs1 := FsExtra.ensureDir fs projectRoot
    let fs2 := FsExtra.copy fs1 (packageRoot ++ [("sample-projects" : String), ("basic" : String)]) projectRoot
    match advancedOverlay fs2 packageRoot projectRoot projectType with
    | (.error e, fsE) => (.error e, fsE)
    | (.ok _, fs3) =>
      match typescriptOverlay fs3 cwd packageRoot projectRoot projectType with
      | (.error e, fsE) => (.error e, fsE)
      | (.ok _, fs4) =>
        let fs5 := removeTempFilesIfPresent fs4 projectRoot
        (.ok (), FsExtra.remove fs5 (projectRoot ++ [("LICENSE.md" : String)]))

/-! ## Action selection and the createProject flow -/

/-- The relevant `process.env` slice: the three `*_WITH_DEFAULTS` variables.
Presence (`some`) matters, not the value, mirroring `!== undefined`. -/
structure ProcessEnv : Type where
  HARDHAT_CREATE_BASIC_SAMPLE_PROJECT_WITH_DEFAULTS : Option String
  HARDHAT_CREATE_ADVANCED_SAMPLE_PROJECT_WITH_DEFAULTS : Option String
  HARDHAT_CREATE_ADVANCED_TYPESCRIPT_SAMPLE_PROJECT_WITH_DEFAULTS : Option String
  deriving DecidableEq

/-- Errors escaping `getAction`/`createProject`: an unsupported wizard answer,
or a collaborator exception rethrown unchanged (modelled by its message). -/
inductive CliError : Type
  | unsupportedOperation (operation : String)
  | rethrown (e : String)
  deriving DecidableEq

/-- `getAction`: environment overrides in fixed order (basic, advanced,
advanced-typescript), otherwise the interactive prompt.  The prompt is an
oracle `promptOutcome`: `.ok s` is the selected answer string, `.error e` a
thrown value (the empty string signals cancellation).  The returned `Bool`
records whether the prompt was shown. -/
def getAction (env : ProcessEnv) (promptOutcome : Except String String) :
    Except CliError (CliAction × Bool) :=
  if env.HARDHAT_CREATE_BASIC_SAMPLE_PROJECT_WITH_DEFAULTS.isSome then
    .ok (.CREATE_BASIC_SAMPLE_PROJECT_ACTION, false)
  else if env.HARDHAT_CREATE_ADVANCED_SAMPLE_PROJECT_WITH_DEFAULTS.isSome then
    .ok (.CREATE_ADVANCED_SAMPLE_PROJECT_ACTION, false)
  else if env.HARDHAT_CREATE_ADVANCED_TYPESCRIPT_SAMPLE_PROJECT_WITH_DEFAULTS.isSome then
    .ok (.CREATE_ADVANCED_TYPESCRIPT_SAMPLE_PROJECT_ACTION, false)
  else
    match promptOutcome with
    | .ok s =>
      match actionValues.find? (fun a => a.label == s) with
      | some a => .ok (a, true)
      | none =>
        .error (.unsupportedOperation
          ((("Responding with \"" ++ s) ++ "\" to the project initialization wizard")))
    | .error e => if e = "" then .ok (.QUIT_ACTION, true) else .error (.rethrown e)

/-- `useDefaultPromptResponses` as computed in `createProject`. -/
def useDefaultPromptResponses (env : ProcessEnv) : Bool :=
  env.HARDHAT_CREATE_BASIC_SAMPLE_PROJECT_WITH_DEFAULTS.isSome ||
  env.HARDHAT_CREATE_ADVANCED_SAMPLE_PROJECT_WITH_DEFAULTS.isSome ||
  env.HARDHAT_CREATE_ADVANCED_TYPESCRIPT_SAMPLE_PROJECT_WITH_DEFAULTS.isSome

/-- `createPackageJson`: write a default manifest with name
`hardhat-project` into the current working directory. -/
def createPackageJson (fs : FS) (cwd : FsPath) : FS :=
  FsExtra.writeFile fs (cwd ++ [("package.json" : String)])
    (.packageJsonFile ("hardhat-project"))

/-- Modelled from the spec: `DEFAULT_SOLC_VERSION` is imported from
`internal/core/config/default-config`, which is not part of the sources; the
spec only says the empty config pins "the default compiler version constant". -/
def DEFAULT_SOLC_VERSION : String := "0.7.3"

/-- `writeEmptyHardhatConfig`: writes `hardhat.config.js` in the current
working directory (the JSDoc header line of the template is elided here). -/
def writeEmptyHardhatConfig (fs : FS) (cwd : FsPath) : FS :=
  FsExtra.writeFile fs (cwd ++ [("hardhat.config.js" : String)])
    (.content (((("module.exports = \x7b\n  solidity: \"" ++ DEFAULT_SOLC_VERSION) ++ "\",\n\x7d;\n"))))

/-- How the front segment of `createProject` (lines 344-412) ends. -/
inductive StartOutcome : Type
  | quitNoop
  | cancelledAtProjectPrompt
  | emptyConfigDone
  | proceeding (projectRoot : FsPath) (shouldAddGitIgnore : Bool)
  deriving DecidableEq

/-- The front segment of `createProject` (lines 344-412): action selection,
early quit, default `package.json` creation, the empty-config early exit, and
resolution of `projectRoot`/`shouldAddGitIgnore` (defaults or the
project-creation prompt, whose cancellation sentinel is the empty string).
Returns the outcome together with the filesystem as mutated so far. -/
def createProjectStart (fs : FS) (cwd : FsPath) (env : ProcessEnv)
    (actionPrompt : Except String String)
    (projectPrompt : Except String (FsPath × Bool)) :
    Except CliError StartOutcome × FS :=
  match getAction env actionPrompt with
  | .error e => (.error e, fs)
  | .ok (action, _) =>
    if action = .QUIT_ACTION then (.ok .quitNoop, fs)
    else
      let fs1 :=
        if FsExtra.pathExists fs (cwd ++ [("package.json" : String)]) then fs
        else createPackageJson fs cwd
      if action = .CREATE_EMPTY_HARDHAT_CONFIG_ACTION then
        (.ok .emptyConfigDone, writeEmptyHardhatConfig fs1 cwd)
      else if useDefaultPromptResponses env then
        (.ok (.proceeding cwd true), fs1)
      else
        match projectPrompt with
        | .error e =>
          if e = "" then (.ok .cancelledAtProjectPrompt, fs1)
          else (.error (.rethrown e), fs1)
        | .ok (projectRoot, shouldAddGitIgnore) =>
          (.ok (.proceeding projectRoot shouldAddGitIgnore), fs1)

/-! ## Dependency reconciliation and installation -/

/-- The destination manifest's three dependency sections. -/
structure Manifest : Type where
  dependencies : Dependencies
  devDependencies : Dependencies
  optionalDependencies : Dependencies
  deriving DecidableEq

/-- `isInstalled`: is `dep` a key of the merged
dependencies/devDependencies/optionalDependencies object? -/
def isInstalled (m : Manifest) (dep : String) : Bool :=
  ((m.dependencies ++ m.devDependencies ++ m.optionalDependencies).map
    (fun e => e.1)).contains dep

/-- `canInstallRecommendedDeps`: a `package.json` must exist and the host
platform must not be the named broken one (`Windows_NT`). -/
def canInstallRecommendedDeps (packageJsonExists : Bool) (osType : String) : Bool :=
  packageJsonExists && !(osType == "Windows_NT")

/-- `isYarnProject`: the yarn lockfile marker exists in the current working
directory. -/
def isYarnProject (fs : FS) (cwd : FsPath) : Bool :=
  FsExtra.pathExists fs (cwd ++ [("yarn.lock" : String)])

/-- One `name@range` token, quoted or not (the ternary inside
`getRecommendedDependenciesInstallationCommand`). -/
def depToken (quoteDependencies : Bool) (e : String × String) : String :=
  if quoteDependencies then ("\"" ++ ((e.1 ++ "@") ++ e.2)) ++ "\""
  else (e.1 ++ "@") ++ e.2

/-- `getRecommendedDependenciesInstallationCommand`: yarn form iff the yarn
lockfile marker exists, npm form otherwise; tokens quoted per the flag
(default `true`). -/
def getRecommendedDependenciesInstallationCommand (fs : FS) (cwd : FsPath)
    (dependencies : Dependencies) (quoteDependencies : Bool := true) : List String :=
  let deps := dependencies.map (depToken quoteDependencies)
  if isYarnProject fs cwd then ["yarn", "add", "--dev"] ++ deps
  else ["npm", "install", "--save-dev"] ++ deps

/-- `installRecommendedDependencies` builds the command with UNQUOTED tokens
(they go to `child_process.spawn`, which needs no shell quoting) and splits
it into the spawned program (`installCmd[0]`) and its arguments
(`installCmd.slice(1)`). -/
def installRecommendedDependencies (fs : FS) (cwd : FsPath)
    (dependencies : Dependencies) : String × List String :=
  let installCmd := getRecommendedDependenciesInstallationCommand fs cwd dependencies false
  (installCmd.headD (""), installCmd.drop 1)

/-- What the spawned child process reports: a `close` event with an exit
status (`none` models Node's `null` status for signal-killed processes) or an
`error` event. -/
inductive SpawnEvent : Type
  | close (status : Option Int)
  | errorEvent
  deriving DecidableEq

/-- `installDependencies`' promise: `resolve(true)` only when the exit status
is exactly 0; every other close status — and a spawn-level error — runs
`reject(false)`, modelled as `Except.error`, which makes the caller's `await`
throw. -/
def installDependencies (packageManager : String) (args : List String)
    (ev : SpawnEvent) : Except Bool Bool :=
  match ev with
  | .close status => if status = some 0 then .ok true else .error false
  | .errorEvent => .error false

/-- Environmental inputs of the dependency step of `createProject`. -/
structure InstallEnv : Type where
  packageJsonExists : Bool
  osType : String
  manifest : Manifest
  useDefaults : Bool
  confirmInstall : Bool
  installOutcome : Except Bool Bool
  deriving DecidableEq

/-- Observable outcome of the dependency step of `createProject`. -/
structure InstallTrace : Type where
  promptShown : Bool
  installInvokedWith : Option Dependencies
  warned : Bool
  instructionsPrinted : Bool
  aborted : Bool
  deriving DecidableEq

/-- The dependency-reconciliation step of `createProject` (lines 428-472):
classify the manifest against the required dependencies and decide whether to
prompt, install, warn, and/or print manual installation instructions.
`aborted` records an exception escaping `createProject` (a rejected install
promise is not caught by the caller). -/
def createProjectDependenciesStep (env : InstallEnv)
    (dependencies : Dependencies) : InstallTrace :=
  if canInstallRecommendedDeps env.packageJsonExists env.osType then
    let recommendedDeps := dependencies.map (fun e => e.1)
    let dependenciesToInstall :=
      dependencies.filter (fun e => !(isInstalled env.manifest e.1))
    let installedRecommendedDeps := recommendedDeps.filter (isInstalled env.manifest)
    let installedExceptHardhat :=
      installedRecommendedDeps.filter (fun name => name ≠ HARDHAT_PACKAGE_NAME)
    if installedRecommendedDeps.length = recommendedDeps.length then
      { promptShown := false, installInvokedWith := none, warned := false,
        instructionsPrinted := false, aborted := false }
    else if installedExceptHardhat.length = 0 then
      let shouldInstall := env.useDefaults || env.confirmInstall
      if shouldInstall then
        match env.installOutcome with
        | .error _ =>
          { promptShown := !env.useDefaults, installInvokedWith := some dependenciesToInstall,
            warned := false, instructionsPrinted := false, aborted := true }
        | .ok installed =>
          { promptShown := !env.useDefaults, installInvokedWith := some dependenciesToInstall,
            warned := !installed, instructionsPrinted := !installed, aborted := false }
      else
        { promptShown := !env.useDefaults, installInvokedWith := none, warned := false,
          instructionsPrinted := true, aborted := false }
    else
      { promptShown := false, installInvokedWith := none, warned := false,
        instructionsPrinted := true, aborted := false }
  else
    { promptShown := false, installInvokedWith := none, warned := false,
      instructionsPrinted := true, aborted := false }

/-! ## Concrete fixtures

The `sample-projects` trees shipped next to the module are data of the
repository that is not under the given sources.  Modelled from the spec: the
basic tier ships `hardhat.config.js`, a sample script and a sample test (plus
a license file removed after copying); the advanced tier overlays its own
config, a deploy script and a staged `npmignore`; the advanced-ts tier ships
the typed counterparts `hardhat.config.ts`, `scripts/deploy.ts`,
`test/sample-test.ts` and its own staged `npmignore`. -/

def sampleTreeDirs : List FsPath :=
  [["hh"], ["hh", "sample-projects"],
   ["hh", "sample-projects", "basic"],
   ["hh", "sample-projects", "basic", "contracts"],
   ["hh", "sample-projects", "basic", "scripts"],
   ["hh", "sample-projects", "basic", "test"],
   ["hh", "sample-projects", "advanced"],
   ["hh", "sample-projects", "advanced", "scripts"],
   ["hh", "sample-projects", "advanced-ts"],
   ["hh", "sample-projects", "advanced-ts", "scripts"],
   ["hh", "sample-projects", "advanced-ts", "test"]]

def sampleTreeFiles : List (FsPath × FileData) :=
  [(["hh", "sample-projects", "basic", "hardhat.config.js"], .content ("basic config")),
   (["hh", "sample-projects", "basic", "README.md"], .content ("basic readme")),
   (["hh", "sample-projects", "basic", "LICENSE.md"], .content ("license")),
   (["hh", "sample-projects", "basic", "contracts", "Greeter.sol"], .content ("greeter")),
   (["hh", "sample-projects", "basic", "scripts", "sample-script.js"], .content ("sample script")),
   (["hh", "sample-projects", "basic", "test", "sample-test.js"], .content ("basic test")),
   (["hh", "sample-projects", "advanced", "hardhat.config.js"], .content ("advanced config")),
   (["hh", "sample-projects", "advanced", "npmignore"], .content ("advanced npmignore")),
   (["hh", "sample-projects", "advanced", "scripts", "deploy.js"], .content ("advanced deploy")),
   (["hh", "sample-projects", "advanced-ts", "hardhat.config.ts"], .content ("ts config")),
   (["hh", "sample-projects", "advanced-ts", "npmignore"], .content ("ts npmignore")),
   (["hh", "sample-projects", "advanced-ts", "tsconfig.json"], .content ("tsconfig")),
   (["hh", "sample-projects", "advanced-ts", "scripts", "deploy.ts"], .content ("ts deploy")),
   (["hh", "sample-projects", "advanced-ts", "test", "sample-test.ts"], .content ("ts test"))]

/-- An empty destination directory `/proj`, a working directory `/home`
distinct from it, and the sample trees under the package root `/hh`. -/
def fsEmptyDest : FS :=
  { dirs := [["home"], ["proj"]] ++ sampleTreeDirs, files := sampleTreeFiles }

/-- Like `fsEmptyDest`, but the destination `/proj` does not exist at all. -/
def fsNoDest : FS :=
  { dirs := [["home"]] ++ sampleTreeDirs, files := sampleTreeFiles }

/-- A destination that already holds a `hardhat.config.js`. -/
def fsConflictDest : FS :=
  { dirs := [["home"], ["proj"]] ++ sampleTreeDirs,
    files := (["proj", "hardhat.config.js"], .content ("existing config")) :: sampleTreeFiles }

/-! ## Helper lemmas -/

theorem mem_dedupKeepFirst {α : Type} [DecidableEq α] (a : α) :
    ∀ l : List α, a ∈ dedupKeepFirst l ↔ a ∈ l := by
  intro l
  induction l with
  | nil => simp [dedupKeepFirst]
  | cons x xs ih =>
    simp only [dedupKeepFirst, List.mem_cons, List.mem_filter, ih]
    by_cases h : a = x
    · simp [h]
    · simp [h]

theorem mem_lodash_intersection {α : Type} [DecidableEq α] (a : α) (l₁ l₂ : List α) :
    a ∈ Lodash.intersection l₁ l₂ ↔ a ∈ l₁ ∧ a ∈ l₂ := by
  simp [Lodash.intersection, List.mem_filter, mem_dedupKeepFirst]

theorem fileAt_writeFile (fs : FS) (p : FsPath) (d : FileData) :
    FsExtra.fileAt (FsExtra.writeFile fs p d) p = some d := by
  unfold FsExtra.fileAt FsExtra.writeFile
  have h : ∀ l : List (FsPath × FileData),
      (l.filter (fun e => decide (e.1 ≠ p)) ++ [(p, d)]).find?
        (fun e => decide (e.1 = p)) = some (p, d) := by
    intro l
    induction l with
    | nil => simp [List.find?_cons]
    | cons e es ih =>
      by_cases he : e.1 = p
      · simp [List.filter_cons, he, ih]
      · simp [List.filter_cons, he, List.find?_cons, ih]
  rw [h fs.files]
  rfl

/-! ## Claims -/

/-- C1: for every tier-creating action and destination whose current entries
intersect the union of the requested tiers' source file names, composition
fails with a ConflictingFiles error carrying the destination path and a list
holding exactly the colliding filenames, and the filesystem — in particular
the destination — is returned unchanged: `checkForDuplicates` runs before any
copy in `copySampleProject`. -/
theorem conflictingFiles_blocks_copy (fs : FS)
    (cwd packageRoot projectRoot : FsPath) (t : SampleProjectTypeCreationAction)
    (destFiles srcFiles : List String) (n : String)
    (hdest : FsExtra.readdirSync fs projectRoot = .ok destFiles)
    (hsrc : srcFilesFor fs packageRoot t = .ok srcFiles)
    (hn : n ∈ srcFiles) (hm : n ∈ destFiles) :
    copySampleProject fs cwd packageRoot projectRoot t
      = (.error (.conflictingFiles projectRoot (Lodash.intersection srcFiles destFiles)), fs)
    ∧ ∀ m, (m ∈ Lodash.intersection srcFiles destFiles ↔ (m ∈ srcFiles ∧ m ∈ destFiles)) := by
  have hmem : n ∈ Lodash.intersection srcFiles destFiles :=
    (mem_lodash_intersection n srcFiles destFiles).mpr ⟨hn, hm⟩
  have hpos : (Lodash.intersection srcFiles destFiles).length > 0 :=
    List.length_pos_of_mem hmem
  have hchk : checkForDuplicates fs packageRoot projectRoot t
      = .error (.conflictingFiles projectRoot (Lodash.intersection srcFiles destFiles)) := by
    unfold checkForDuplicates
    rw [hdest, hsrc]
    simp [hpos]
  constructor
  · unfold copySampleProject
    rw [hchk]
  · intro m
    exact mem_lodash_intersection m srcFiles destFiles

theorem conflictingFiles_blocks_copy_witness :
    copySampleProject fsConflictDest ["home"] ["hh"] ["proj"] .basic
      = (.error (.conflictingFiles ["proj"] (Lodash.intersection
          ["contracts", "scripts", "test", "hardhat.config.js", "README.md", "LICENSE.md"]
          ["hardhat.config.js"])), fsConflictDest) :=
  (conflictingFiles_blocks_copy fsConflictDest ["home"] ["hh"] ["proj"] .basic
    ["hardhat.config.js"]
    ["contracts", "scripts", "test", "hardhat.config.js", "README.md", "LICENSE.md"]
    ("hardhat.config.js") (by decide) (by decide) (by decide) (by decide)).1

/-- The required dependency set used by several concrete scenarios, pinned to
a concrete running framework version. -/
def depsBasicPinned : Dependencies := getDependencies .basic ("2.8.4")

/-- A destination manifest that declares every basic-tier requirement. -/
def manifestAllBasic : Manifest := ⟨depsBasicPinned, [], []⟩

/-- A destination manifest that declares only the framework package. -/
def manifestHardhatOnly : Manifest := ⟨[(("hardhat" : String), ("^2.8.0" : String))], [], []⟩

/-- The dependency step's environment on the hardhat-only manifest, in
default-responses mode, with an install attempt that exits with status 1. -/
def envInstallRejected : InstallEnv :=
  ⟨true, ("Linux"), manifestHardhatOnly, true, false,
   installDependencies ("npm") [("install" : String), ("--save-dev" : String)]
     (.close (some 1))⟩

/-- C2: refuted in part.  Exit status 0 resolves to success, but a nonzero
exit status (or a spawn-level error) REJECTS the promise (`reject(false)`)
instead of resolving to a failure result: the caller's `await` throws, the
exception escapes `createProject` (`aborted = true`), and the manual
installation instructions are never printed. -/
theorem installDependencies_nonzero_exit_rejects :
    installDependencies ("npm") [("install" : String), ("--save-dev" : String)]
      (.close (some 0)) = .ok true
    ∧ installDependencies ("npm") [("install" : String), ("--save-dev" : String)]
      (.close (some 1)) = .error false
    ∧ installDependencies ("npm") [("install" : String), ("--save-dev" : String)]
      .errorEvent = .error false
    ∧ (createProjectDependenciesStep envInstallRejected depsBasicPinned).aborted = true
    ∧ (createProjectDependenciesStep envInstallRejected depsBasicPinned).instructionsPrinted
        = false := by
  decide

/-- The advanced-typescript composition run on an empty destination `/proj`
with working directory `/home` distinct from it. -/
def advancedTsRun : Except HardhatError Unit × FS :=
  copySampleProject fsEmptyDest ["home"] ["hh"] ["proj"] .advancedTs

/-- C3: refuted for a destination other than the working directory.  The
cleanup loop passes `hardhat.config.js`, `scripts/deploy.js` and
`test/sample-test.js` to `fsExtra.remove` as relative paths, which resolve
against `process.cwd()`; with `projectRoot ≠ cwd` all three remain in the
destination after a successful run, while the dot-rename of `npmignore` and
the typed counterparts behave as claimed. -/
theorem advancedTs_cleanup_misses_destination :
    advancedTsRun.1 = .ok ()
    ∧ FsExtra.fileAt advancedTsRun.2 ["proj", "hardhat.config.js"]
        = some (.content ("advanced config"))
    ∧ FsExtra.fileAt advancedTsRun.2 ["proj", "scripts", "deploy.js"]
        = some (.content ("advanced deploy"))
    ∧ FsExtra.fileAt advancedTsRun.2 ["proj", "test", "sample-test.js"]
        = some (.content ("basic test"))
    ∧ FsExtra.fileAt advancedTsRun.2 ["proj", "hardhat.config.ts"]
        = some (.content ("ts config"))
    ∧ FsExtra.fileAt advancedTsRun.2 ["proj", "scripts", "deploy.ts"]
        = some (.content ("ts deploy"))
    ∧ FsExtra.fileAt advancedTsRun.2 ["proj", "test", "sample-test.ts"]
        = some (.content ("ts test"))
    ∧ FsExtra.fileAt advancedTsRun.2 ["proj", ".npmignore"]
        = some (.content ("ts npmignore"))
    ∧ FsExtra.fileAt advancedTsRun.2 ["proj", "npmignore"] = none
    ∧ FsExtra.fileAt advancedTsRun.2 ["proj", "LICENSE.md"] = none := by
  decide

/-- C4: refuted.  Listing a non-existent destination is an error: the
conflict check's `fsExtra.readdirSync(projectRoot)` throws `ENOENT` instead
of yielding the empty list, so `checkForDuplicates` fails for a reason other
than a filename collision. -/
theorem checkForDuplicates_missing_destination_errors :
    FsExtra.readdirSync fsNoDest ["proj"] = .error .ENOENT
    ∧ checkForDuplicates fsNoDest ["hh"] ["proj"] .basic = .error (.fsError .ENOENT) := by
  decide

/-- A fully-satisfied manifest on the platform named as broken
(`Windows_NT`), in default-responses mode. -/
def envWindowsAllInstalled : InstallEnv :=
  ⟨true, ("Windows_NT"), manifestAllBasic, true, true, .ok true⟩

/-- C5, counterexample: on `Windows_NT` the auto-install gate fails, so even
with an empty missing set (every required name a key of the merged manifest)
the installation instructions ARE printed, contradicting the claim's "for
every platform/manifest configuration". -/
theorem fully_satisfied_windows_prints_instructions :
    (depsBasicPinned.filter
        (fun e => !(isInstalled envWindowsAllInstalled.manifest e.1)) = [])
    ∧ (createProjectDependenciesStep envWindowsAllInstalled
        depsBasicPinned).instructionsPrinted = true := by
  decide

/-- C5, amended: whenever the missing set is empty, no install is performed
and no confirmation prompt is shown, on every platform/manifest
configuration; and no installation instructions are printed provided the
auto-install gate passes (a manifest file exists and the platform is not
`Windows_NT`). -/
theorem fully_satisfied_no_prompt_no_install (env : InstallEnv)
    (dependencies : Dependencies)
    (hmissing : dependencies.filter (fun e => !(isInstalled env.manifest e.1)) = []) :
    (createProjectDependenciesStep env dependencies).promptShown = false
    ∧ (createProjectDependenciesStep env dependencies).installInvokedWith = none
    ∧ (canInstallRecommendedDeps env.packageJsonExists env.osType = true →
        (createProjectDependenciesStep env dependencies).instructionsPrinted = false) := by
  have hall : ∀ e ∈ dependencies, isInstalled env.manifest e.1 = true := by
    intro e he
    have h := List.filter_eq_nil_iff.mp hmissing e he
    simpa using h
  have hrec : (dependencies.map (fun e => e.1)).filter (isInstalled env.manifest)
      = dependencies.map (fun e => e.1) := by
    apply List.filter_eq_self.mpr
    intro n hn
    rcases List.mem_map.mp hn with ⟨e, he, rfl⟩
    exact hall e he
  by_cases hcan : canInstallRecommendedDeps env.packageJsonExists env.osType = true
  · unfold createProjectDependenciesStep
    simp [hcan, hrec]
  · unfold createProjectDependenciesStep
    simp [hcan]

/-- A fully-satisfied manifest on a platform passing the gate. -/
def envLinuxAllInstalled : InstallEnv :=
  ⟨true, ("Linux"), manifestAllBasic, true, true, .ok true⟩

theorem fully_satisfied_no_prompt_no_install_witness :
    (createProjectDependenciesStep envLinuxAllInstalled depsBasicPinned).promptShown = false
    ∧ (createProjectDependenciesStep envLinuxAllInstalled depsBasicPinned).installInvokedWith
        = none
    ∧ (createProjectDependenciesStep envLinuxAllInstalled depsBasicPinned).instructionsPrinted
        = false := by
  have h := fully_satisfied_no_prompt_no_install envLinuxAllInstalled depsBasicPinned
    (by decide)
  exact ⟨h.1, h.2.1, h.2.2 (by decide)⟩

/-- C6: when the installed required names are contained in `{hardhat}`, the
missing set is non-empty, the auto-install gate passes, and confirmation is
affirmative (explicitly or via default-responses mode), the installer is
invoked with exactly the required entries whose names are absent from the
merged manifest, and no others. -/
theorem framework_only_installs_exactly_missing (env : InstallEnv)
    (dependencies : Dependencies)
    (hcan : canInstallRecommendedDeps env.packageJsonExists env.osType = true)
    (honlyhh : ∀ n ∈ dependencies.map (fun e => e.1),
        isInstalled env.manifest n = true → n = HARDHAT_PACKAGE_NAME)
    (hmissing : dependencies.filter (fun e => !(isInstalled env.manifest e.1)) ≠ [])
    (hconfirm : (env.useDefaults || env.confirmInstall) = true) :
    (createProjectDependenciesStep env dependencies).installInvokedWith
      = some (dependencies.filter (fun e => !(isInstalled env.manifest e.1))) := by
  have hlenne : ((dependencies.map (fun e => e.1)).filter (isInstalled env.manifest)).length
      ≠ (dependencies.map (fun e => e.1)).length := by
    intro heq
    have hself : (dependencies.map (fun e => e.1)).filter (isInstalled env.manifest)
        = dependencies.map (fun e => e.1) :=
      (List.filter_sublist _).eq_of_length heq
    apply hmissing
    apply List.filter_eq_nil_iff.mpr
    intro e he
    have hmem : e.1 ∈ dependencies.map (fun x => x.1) := List.mem_map_of_mem _ he
    have hinst := List.filter_eq_self.mp hself e.1 hmem
    simp [hinst]
  have hexcept : (((dependencies.map (fun e => e.1)).filter (isInstalled env.manifest)).filter
      (fun name => name ≠ HARDHAT_PACKAGE_NAME)) = [] := by
    apply List.filter_eq_nil_iff.mpr
    intro n hn
    have hn1 := List.mem_filter.mp hn
    have hname : n = HARDHAT_PACKAGE_NAME := honlyhh n hn1.1 hn1.2
    simp [hname]
  unfold createProjectDependenciesStep
  simp only [hcan, if_true]
  rw [if_neg hlenne, if_pos (by rw [hexcept]; rfl), if_pos hconfirm]
  cases env.installOutcome <;> rfl

/-- Framework-only manifest with an affirmative default-responses mode. -/
def envFrameworkOnly : InstallEnv :=
  ⟨true, ("Linux"), manifestHardhatOnly, true, false, .ok true⟩

theorem framework_only_installs_exactly_missing_witness :
    (createProjectDependenciesStep envFrameworkOnly depsBasicPinned).installInvokedWith
      = some (depsBasicPinned.filter
          (fun e => !(isInstalled envFrameworkOnly.manifest e.1))) :=
  framework_only_installs_exactly_missing envFrameworkOnly depsBasicPinned
    (by decide) (by decide) (by decide) (by decide)

/-- C7: the dependency tables are strictly nested by tier — every basic name
is an advanced name and every advanced name an advanced-typescript name, with
proper extensions in both steps — and for every tier-creating action the set
returned by `getDependencies` contains the hardhat framework package mapped
to a caret range on the running framework version. -/
theorem dependency_sets_nested :
    (∀ n ∈ BASIC_SAMPLE_PROJECT_DEPENDENCIES.map (fun e => e.1),
        n ∈ ADVANCED_SAMPLE_PROJECT_DEPENDENCIES.map (fun e => e.1))
    ∧ (∀ n ∈ ADVANCED_SAMPLE_PROJECT_DEPENDENCIES.map (fun e => e.1),
        n ∈ ADVANCED_TYPESCRIPT_SAMPLE_PROJECT_DEPENDENCIES.map (fun e => e.1))
    ∧ (("dotenv" : String) ∈ ADVANCED_SAMPLE_PROJECT_DEPENDENCIES.map (fun e => e.1)
        ∧ ("dotenv" : String) ∉ BASIC_SAMPLE_PROJECT_DEPENDENCIES.map (fun e => e.1))
    ∧ (("typescript" : String)
          ∈ ADVANCED_TYPESCRIPT_SAMPLE_PROJECT_DEPENDENCIES.map (fun e => e.1)
        ∧ ("typescript" : String) ∉ ADVANCED_SAMPLE_PROJECT_DEPENDENCIES.map (fun e => e.1))
    ∧ (∀ (t : SampleProjectTypeCreationAction) (version : String),
        (HARDHAT_PACKAGE_NAME, "^" ++ version) ∈ getDependencies t version) := by
  refine ⟨by decide, by decide, by decide, by decide, ?_⟩
  intro t version
  exact List.mem_cons_self _ _

theorem dependency_sets_nested_witness :
    ("chai" : String) ∈ ADVANCED_SAMPLE_PROJECT_DEPENDENCIES.map (fun e => e.1)
    ∧ ("chai" : String) ∈ ADVANCED_TYPESCRIPT_SAMPLE_PROJECT_DEPENDENCIES.map (fun e => e.1) :=
  ⟨dependency_sets_nested.1 ("chai") (by decide),
   dependency_sets_nested.2.1 ("chai") (by decide)⟩

/-- C8: the built install command is the yarn form (`yarn add --dev ...`)
exactly when the `yarn.lock` marker exists and the npm form
(`npm install --save-dev ...`) otherwise; each `name@range` token is wrapped
in double quotes iff the quote flag is true (the display default), while the
split program/argument pair handed to the process invocation uses unquoted
tokens. -/
theorem installation_command_shape (fs : FS) (cwd : FsPath)
    (dependencies : Dependencies) (quoteDependencies : Bool) :
    getRecommendedDependenciesInstallationCommand fs cwd dependencies quoteDependencies
      = (if isYarnProject fs cwd then [("yarn" : String), ("add" : String), ("--dev" : String)]
         else [("npm" : String), ("install" : String), ("--save-dev" : String)])
        ++ dependencies.map (depToken quoteDependencies)
    ∧ isYarnProject fs cwd = FsExtra.pathExists fs (cwd ++ [("yarn.lock" : String)])
    ∧ (∀ e : String × String, depToken true e = ("\"" ++ depToken false e) ++ "\"")
    ∧ installRecommendedDependencies fs cwd dependencies
        = ((if isYarnProject fs cwd then ("yarn" : String) else ("npm" : String)),
           (if isYarnProject fs cwd then [("add" : String), ("--dev" : String)]
            else [("install" : String), ("--save-dev" : String)])
             ++ dependencies.map (depToken false)) := by
  refine ⟨?_, rfl, fun e => rfl, ?_⟩
  · unfold getRecommendedDependenciesInstallationCommand
    by_cases h : isYarnProject fs cwd <;> simp [h]
  · unfold installRecommendedDependencies getRecommendedDependenciesInstallationCommand
    by_cases h : isYarnProject fs cwd <;> simp [h]

/-- C9: the three `*_WITH_DEFAULTS` environment variables are resolved in a
fixed priority order — basic, then advanced, then advanced-typescript — so
whenever several are set the basic action wins, and the interactive prompt is
never consulted (the prompt-shown flag is `false` and the prompt oracle is
irrelevant). -/
theorem getAction_env_priority :
    ∀ (s : String) (a t : Option String) (promptOutcome : Except String String),
      getAction ⟨some s, a, t⟩ promptOutcome
        = .ok (.CREATE_BASIC_SAMPLE_PROJECT_ACTION, false)
      ∧ getAction ⟨none, some s, t⟩ promptOutcome
        = .ok (.CREATE_ADVANCED_SAMPLE_PROJECT_ACTION, false)
      ∧ getAction ⟨none, none, some s⟩ promptOutcome
        = .ok (.CREATE_ADVANCED_TYPESCRIPT_SAMPLE_PROJECT_ACTION, false) := by
  intro s a t promptOutcome
  exact ⟨rfl, rfl, rfl⟩

/-- The environment with none of the `*_WITH_DEFAULTS` variables set. -/
def envNoDefaults : ProcessEnv := ⟨none, none, none⟩

/-- C10: cancelling at the project-root/gitignore prompt (the thrown
empty-string sentinel) makes the flow return cleanly, but only after a
default `package.json` named `hardhat-project` has been written to the
current working directory when none existed — unlike the Quit action, which
returns with the filesystem exactly unchanged. -/
theorem prompt_cancellation_after_package_json_write (fs : FS) (cwd : FsPath)
    (hnopkg : FsExtra.pathExists fs (cwd ++ [("package.json" : String)]) = false) :
    createProjectStart fs cwd envNoDefaults
        (.ok ("Create a basic sample project")) (.error (""))
      = (.ok .cancelledAtProjectPrompt, createPackageJson fs cwd)
    ∧ FsExtra.fileAt (createPackageJson fs cwd) (cwd ++ [("package.json" : String)])
        = some (.packageJsonFile ("hardhat-project"))
    ∧ (∀ projectPrompt, createProjectStart fs cwd envNoDefaults
          (.ok ("Quit")) projectPrompt = (.ok .quitNoop, fs)) := by
  have hga : getAction envNoDefaults (.ok ("Create a basic sample project"))
      = .ok (.CREATE_BASIC_SAMPLE_PROJECT_ACTION, true) := by decide
  have hgq : getAction envNoDefaults (.ok ("Quit"))
      = .ok (.QUIT_ACTION, true) := by decide
  refine ⟨?_, ?_, ?_⟩
  · unfold createProjectStart
    rw [hga]
    simp [hnopkg, useDefaultPromptResponses, envNoDefaults]
  · unfold createPackageJson
    exact fileAt_writeFile fs _ _
  · intro projectPrompt
    unfold createProjectStart
    rw [hgq]
    simp

/-- A working directory with no `package.json`. -/
def fsHomeOnly : FS := ⟨[["home"]], []⟩

theorem prompt_cancellation_after_package_json_write_witness :
    createProjectStart fsHomeOnly ["home"] envNoDefaults
        (.ok ("Create a basic sample project")) (.error (""))
      = (.ok .cancelledAtProjectPrompt, createPackageJson fsHomeOnly ["home"])
    ∧ createProjectStart fsHomeOnly ["home"] envNoDefaults
        (.ok ("Quit")) (.error ("boom")) = (.ok .quitNoop, fsHomeOnly) := by
  have h := prompt_cancellation_after_package_json_write fsHomeOnly ["home"] (by decide)
  exact ⟨h.1, h.2.2 (.error ("boom"))⟩
